import Mathlib

/-!
Verification development for the Electro Tech price-intelligence system
(`price_intelligence.py`, `production_utils.py`, `run_all.py`).

The Python sources are shallowly embedded below:
* a small backtracking regular-expression engine reproducing the leftmost /
  greedy / ordered-alternation semantics of Python `re.findall` and
  `re.search`, used to embed `PriceExtractor`;
* the sqlite tables `vendors` and `daily_prices` as Lean lists, with
  `DatabaseManager.insert_price` and `DatabaseManager.get_minimum_prices_today`
  embedded over them (the sqlite semantics of `MIN` with bare columns:
  the non-aggregated columns are taken from the first row, in scan order,
  that attains the minimum);
* `retry_with_backoff` and `CircuitBreaker` from `production_utils.py` with
  time and delays modelled as rationals and the wrapped operation modelled
  as an attempt-indexed sequence of outcomes;
* `ProductionOrchestrator.run` and `main` from `run_all.py` as a pure
  function of the per-attempt outcomes of the four pipeline stages.
-/

set_option maxHeartbeats 1600000
set_option maxRecDepth 8000

namespace ElectroTech

/-! ### A tiny backtracking regex engine (Python `re` semantics)

Only the constructs used by `PriceExtractor`'s patterns are embedded:
character classes, concatenation, ordered alternation, greedy star, greedy
option and a single capture group.  `reRun` returns the list of all ways the
expression can match a prefix of the input, in Python's backtracking
priority order (first alternative first, more star iterations first); its
head is the match `re.match` would produce at that position. -/

inductive RE where
  | eps : RE
  | cc : (Char → Bool) → RE
  | seq : RE → RE → RE
  | alt : RE → RE → RE
  | opt : RE → RE
  | star : RE → RE
  | grp : RE → RE

/-- Combine the captures of two sequenced sub-matches (each of our patterns
contains exactly one group, so at most one side is `some`). -/
def combineCap : Option (List Char) → Option (List Char) → Option (List Char)
  | some g, _ => some g
  | none, g => g

/-- One prefix-match result: the remaining input and the group-1 capture. -/
abbrev MRes := List Char × Option (List Char)

/-- Backtracking matcher, fuelled.  Star iterations that consume no input are
discarded (none of the embedded patterns can loop on the empty string, this
mirrors Python's refusal to repeat an empty match forever). -/
def reRunFuel : ℕ → RE → List Char → List MRes
  | 0, _, _ => []
  | _ + 1, .eps, s => [(s, none)]
  | _ + 1, .cc p, s =>
    match s with
    | [] => []
    | c :: t => if p c then [(t, none)] else []
  | f + 1, .seq a b, s =>
    (reRunFuel f a s).flatMap fun r1 =>
      (reRunFuel f b r1.1).map fun r2 => (r2.1, combineCap r1.2 r2.2)
  | f + 1, .alt a b, s => reRunFuel f a s ++ reRunFuel f b s
  | f + 1, .opt a, s => reRunFuel f a s ++ [(s, none)]
  | f + 1, .star a, s =>
    ((reRunFuel f a s).filter (fun r => r.1.length < s.length)).flatMap
      (fun r1 => (reRunFuel f (.star a) r1.1).map
        (fun r2 => (r2.1, combineCap r1.2 r2.2))) ++ [(s, none)]
  | f + 1, .grp a, s =>
    (reRunFuel f a s).map fun r => (r.1, some (s.take (s.length - r.1.length)))

/-- Fuel that is ample for the embedded patterns: recursion depth is bounded
by the pattern size plus, per consumed character, the size of a starred atom. -/
def reFuel (s : List Char) : ℕ := 1000 + 16 * s.length

/-- All matches at the current position, in Python's priority order. -/
def reRun (re : RE) (s : List Char) : List MRes := reRunFuel (reFuel s) re s

/-- `re.findall` over a pattern with exactly one capture group: scan left to
right, at each position keep the first (highest-priority) match, emit its
group, and resume after the match (after one character for an empty match). -/
def reFindAllAux (re : RE) : ℕ → List Char → List (List Char)
  | 0, _ => []
  | f + 1, s =>
    match (reRun re s).head? with
    | some r =>
      let cap := match r.2 with
        | some g => g
        | none => s.take (s.length - r.1.length)
      if r.1.length < s.length then cap :: reFindAllAux re f r.1
      else
        match s with
        | [] => [cap]
        | _ :: t => cap :: reFindAllAux re f t
    | none =>
      match s with
      | [] => []
      | _ :: t => reFindAllAux re f t

def reFindAll (re : RE) (s : List Char) : List (List Char) :=
  reFindAllAux re (s.length + 1) s

/-- `re.search` returning the first match's group-1 text. -/
def reSearchFirst (re : RE) (s : List Char) : Option (List Char) :=
  (reFindAll re s).head?

/-! #### Pattern constructors -/

def chrRE (c : Char) : RE := .cc (fun d => d == c)

def litRE (w : String) : RE :=
  w.toList.foldr (fun c acc => RE.seq (chrRE c) acc) RE.eps

def digitRE : RE := .cc Char.isDigit

/-- Python `\s` (ASCII part; the embedded texts are ASCII). -/
def pySpace (c : Char) : Bool :=
  c == ' ' || c == '\t' || c == '\n' || c == '\r' || c == '\x0b' || c == '\x0c'

def wsRE : RE := .cc pySpace

def plusRE (a : RE) : RE := .seq a (.star a)

/-- `\d{3}` -/
def threeDigitsRE : RE := .seq digitRE (.seq digitRE digitRE)

/-- `\d+(?:,\d{3})*` -/
def numeralCoreRE : RE :=
  .seq (plusRE digitRE) (.star (.seq (chrRE ',') threeDigitsRE))

/-- `\d+(?:,\d{3})*(?:\.\d{2})?` -/
def numeralCentsRE : RE :=
  .seq numeralCoreRE (.opt (.seq (chrRE '.') (.seq digitRE digitRE)))

/-- `(?:rs\.?|rupees?|pkr)` (ordered alternation, as in the source). -/
def currencyRE : RE :=
  .alt (.seq (litRE "rs") (.opt (chrRE '.')))
    (.alt (.seq (litRE "rupee") (.opt (chrRE 's'))) (litRE "pkr"))

/-! ### `PriceExtractor` (price_intelligence.py lines 220-317) -/

/-- `PRICE_PATTERNS[0]`: `(?:rs\.?|rupees?|pkr)\s*(\d+(?:,\d{3})*(?:\.\d{2})?)` -/
def PRICE_PATTERN_1 : RE := .seq currencyRE (.seq (.star wsRE) (.grp numeralCentsRE))

/-- `PRICE_PATTERNS[1]`: `(\d+(?:,\d{3})*(?:\.\d{2})?)\s*(?:rs\.?|rupees?|pkr)` -/
def PRICE_PATTERN_2 : RE := .seq (.grp numeralCentsRE) (.seq (.star wsRE) currencyRE)

/-- `PRICE_PATTERNS[2]`: `price[:\s]+(\d+(?:,\d{3})*)` -/
def PRICE_PATTERN_3 : RE :=
  .seq (litRE "price")
    (.seq (plusRE (.cc (fun c => c == ':' || pySpace c))) (.grp numeralCoreRE))

/-- `PRICE_PATTERNS[3]`: `(\d+(?:,\d{3})*)\s*per` -/
def PRICE_PATTERN_4 : RE := .seq (.grp numeralCoreRE) (.seq (.star wsRE) (litRE "per"))

def PRICE_PATTERNS : List RE :=
  [PRICE_PATTERN_1, PRICE_PATTERN_2, PRICE_PATTERN_3, PRICE_PATTERN_4]

/-- Digits-to-`ℕ` (the numerals matched by the patterns are plain digit runs). -/
def parseDigits (l : List Char) : ℕ :=
  l.foldl (fun n c => n * 10 + (c.toNat - 48)) 0

/-- Python `float(...)` restricted to strings of digits and dots, which is all
`_clean_price` can pass it: at most one dot, at least one digit, otherwise a
`ValueError`.  The result of a successful parse is a nonnegative rational. -/
def parsePyFloat (l : List Char) : Option ℚ :=
  let intPart := l.takeWhile (fun c => c != '.')
  let rest := l.dropWhile (fun c => c != '.')
  match rest with
  | [] =>
    if intPart ≠ [] ∧ intPart.all Char.isDigit then some (parseDigits intPart : ℚ)
    else none
  | _ :: frac =>
    if frac.contains '.' then none
    else if intPart = [] ∧ frac = [] then none
    else if intPart.all Char.isDigit ∧ frac.all Char.isDigit then
      if frac = [] then some (parseDigits intPart : ℚ)
      else some ((parseDigits intPart : ℚ) +
        (parseDigits frac : ℚ) / ((10 : ℚ) ^ frac.length))
    else none

/-- `PriceExtractor._clean_price`: drop every character that is not a digit or
a dot, then `float(...)`, returning `0.0` on a parse failure. -/
def clean_price (l : List Char) : ℚ :=
  (parsePyFloat (l.filter (fun c => c.isDigit || c == '.'))).getD 0

/-- Python `str.lower` (ASCII; `Char.toLower` agrees on ASCII letters). -/
def pyLower (l : List Char) : List Char := l.map Char.toLower

/-- Python substring test `needle in hay`. -/
def containsSub (needle : List Char) : List Char → Bool
  | [] => needle.isEmpty
  | c :: t => needle.isPrefixOf (c :: t) || containsSub needle t

/-- Python `str.title` composed with `replace('_', ' ')` as used on category
keys and model names: capitalise the first letter of each alphabetic run. -/
def pyTitleAux : Bool → List Char → List Char
  | _, [] => []
  | cap, c :: t =>
    if c.isAlpha then (if cap then c.toUpper else c.toLower) :: pyTitleAux false t
    else c :: pyTitleAux true t

def pyTitle (l : List Char) : List Char := pyTitleAux true l

def pyReplaceUnderscore (l : List Char) : List Char :=
  l.map fun c => if c == '_' then ' ' else c

/-- `PriceExtractor.CATEGORIES` in insertion order (Python dicts preserve it). -/
def CATEGORIES : List (String × List String) :=
  [("inverter", ["inverter", "ups", "power backup"]),
   ("solar_panel", ["solar panel", "solar", "panel", "photovoltaic", "pv"]),
   ("battery", ["battery", "batteries", "tubular", "lithium", "gel"])]

def INVERTER_MODELS : List String := ["growatt", "goodwe", "fronius", "sma", "huawei", "solis"]
def PANEL_MODELS : List String := ["longi", "jinko", "ja solar", "risen", "trina"]
def BATTERY_MODELS : List String := ["tesla", "pylontech", "byd", "tubular", "lithium"]

/-- `PriceExtractor._detect_category`: first category any of whose keywords is
a substring of the (lower-cased) text, rendered `replace('_',' ').title()`. -/
def detect_category (text : List Char) : Option String :=
  (CATEGORIES.find? fun kv => kv.2.any fun kw => containsSub kw.toList text).map
    fun kv => String.mk (pyTitle (pyReplaceUnderscore kv.1.toList))

/-- `(\d+)\s*(?:kw|w|watt)` used by `_detect_model` for wattage fallback. -/
def wattageRE : RE :=
  .seq (.grp (plusRE digitRE))
    (.seq (.star wsRE) (.alt (litRE "kw") (.alt (litRE "w") (litRE "watt"))))

/-- `PriceExtractor._detect_model`. -/
def detect_model (text : List Char) (category : String) : String :=
  let catLower := pyLower category.toList
  let models :=
    if containsSub "inverter".toList catLower then INVERTER_MODELS
    else if containsSub "panel".toList catLower then PANEL_MODELS
    else if containsSub "battery".toList catLower then BATTERY_MODELS
    else []
  match models.find? (fun m => containsSub m.toList text) with
  | some m => String.mk (pyTitle m.toList)
  | none =>
    match reSearchFirst wattageRE text with
    | some g => String.mk g ++ "W"
    | none => "Generic"

/-- The dict built per price in `extract_from_text`. -/
structure PriceCandidate where
  category : String
  model : String
  price : ℚ
  unit : String
  raw_text : String
deriving DecidableEq

/-- The `prices` list of `extract_from_text`: all pattern matches, pattern by
pattern, each run through `_clean_price` — with no deduplication. -/
def extractPrices (text : String) : List ℚ :=
  PRICE_PATTERNS.flatMap fun p => (reFindAll p (pyLower text.toList)).map clean_price

/-- `PriceExtractor.extract_from_text`. -/
def extract_from_text (text : String) : List PriceCandidate :=
  let textLower := pyLower text.toList
  let prices := extractPrices text
  if prices.isEmpty then []
  else
    match detect_category textLower with
    | none => []
    | some category =>
      let model := detect_model textLower category
      prices.map fun pr =>
        { category := category, model := model, price := pr,
          unit := "per piece", raw_text := String.mk (text.toList.take 200) }

/-! ### `DatabaseManager` (price_intelligence.py lines 84-214)

The two sqlite tables touched by the claims are embedded as lists in
insertion (rowid) order.  Only the columns the embedded operations read are
kept.  Note that the Python process never issues `PRAGMA foreign_keys = ON`,
so the `FOREIGN KEY (vendor_id)` declared on `daily_prices` is *not*
enforced by sqlite3's default connection: an `INSERT` with any `vendor_id`
succeeds. -/

structure VendorRow where
  vendor_id : String
  vendor_name : String
  mobile : String
  whatsapp_number : String
  vendor_type : String
  status : String
deriving DecidableEq

structure PriceRow where
  date : ℕ
  vendor_id : String
  product_category : String
  product_model : String
  product_company : String
  price : ℚ
  unit : String
  source : String
deriving DecidableEq

structure DB where
  vendors : List VendorRow
  daily_prices : List PriceRow
deriving DecidableEq

/-- `DatabaseManager.insert_price`: appends one `daily_prices` row stamped
with the current date.  No vendor lookup of any kind is performed, and the
declared foreign key is not enforced (sqlite3 keeps `foreign_keys` off by
default and the code never turns it on), so the insert always succeeds. -/
def insert_price (db : DB) (vendor_id category model : String) (price : ℚ)
    (company unit source : String) (today : ℕ) : DB :=
  { db with daily_prices := db.daily_prices ++
      [{ date := today, vendor_id := vendor_id, product_category := category,
         product_model := model, product_company := company, price := price,
         unit := unit, source := source }] }

/-- One row of the `get_minimum_prices_today` result set. -/
structure AggQuote where
  product_category : String
  product_model : String
  product_company : String
  min_price : ℚ
  unit : String
  vendor_id : String
  vendor_name : String
  mobile : String
  vendor_type : String
deriving DecidableEq

/-- The `GROUP BY` key `(product_category, product_model, product_company)`. -/
def rowKey (p : PriceRow) : String × String × String :=
  (p.product_category, p.product_model, p.product_company)

def prKey (r : PriceRow × VendorRow) : String × String × String := rowKey r.1

def quoteKey (q : AggQuote) : String × String × String :=
  (q.product_category, q.product_model, q.product_company)

/-- `FROM daily_prices dp JOIN vendors v ON dp.vendor_id = v.vendor_id
WHERE dp.date = ?`: the inner join of today's price rows with the vendors
table, in scan (insertion) order.  A price row whose `vendor_id` has no
`vendors` row contributes nothing. -/
def joinedRows (db : DB) (today : ℕ) : List (PriceRow × VendorRow) :=
  (db.daily_prices.filter (fun p => decide (p.date = today))).flatMap fun p =>
    (db.vendors.filter (fun v => decide (v.vendor_id = p.vendor_id))).map fun v => (p, v)

/-- sqlite's `MIN(price)` aggregation step: the running best is replaced only
by a strictly smaller price, so among equal minima the first row in scan
order is kept, and the bare columns of the result come from that row. -/
def sqlMinRow : List (PriceRow × VendorRow) → Option (PriceRow × VendorRow)
  | [] => none
  | r :: rs =>
    match sqlMinRow rs with
    | none => some r
    | some b => if b.1.price < r.1.price then some b else some r

/-- The projected columns of the query (bare columns from the min row). -/
def mkQuote (r : PriceRow × VendorRow) : AggQuote :=
  { product_category := r.1.product_category, product_model := r.1.product_model,
    product_company := r.1.product_company, min_price := r.1.price,
    unit := r.1.unit, vendor_id := r.2.vendor_id, vendor_name := r.2.vendor_name,
    mobile := r.2.mobile, vendor_type := r.2.vendor_type }

/-- `GROUP BY` + `MIN(price)` over the joined rows: one quote per distinct
key, with bare columns from the first scan-order row attaining the group
minimum. -/
def aggregate (joined : List (PriceRow × VendorRow)) : List AggQuote :=
  ((joined.map prKey).dedup).filterMap fun k =>
    (sqlMinRow (joined.filter (fun r => decide (prKey r = k)))).map mkQuote

/-- `ORDER BY dp.product_category, min_price`. -/
def quoteLE (q1 q2 : AggQuote) : Prop :=
  q1.product_category < q2.product_category ∨
    (q1.product_category = q2.product_category ∧ q1.min_price ≤ q2.min_price)

instance : DecidableRel quoteLE := fun q1 q2 => by
  unfold quoteLE; infer_instance

instance : IsTotal AggQuote quoteLE where
  total q1 q2 := by
    rcases lt_trichotomy q1.product_category q2.product_category with h | h | h
    · exact Or.inl (Or.inl h)
    · rcases le_total q1.min_price q2.min_price with h2 | h2
      · exact Or.inl (Or.inr ⟨h, h2⟩)
      · exact Or.inr (Or.inr ⟨h.symm, h2⟩)
    · exact Or.inr (Or.inl h)

instance : IsTrans AggQuote quoteLE where
  trans q1 q2 q3 h12 h23 := by
    rcases h12 with h12 | ⟨he12, hp12⟩
    · rcases h23 with h23 | ⟨he23, _⟩
      · exact Or.inl (h12.trans h23)
      · exact Or.inl (he23 ▸ h12)
    · rcases h23 with h23 | ⟨he23, hp23⟩
      · exact Or.inl (he12 ▸ h23)
      · exact Or.inr ⟨he12.trans he23, hp12.trans hp23⟩

/-- `DatabaseManager.get_minimum_prices_today` for a given current date:
join, group, take each group's minimum with its bare columns, then order by
`(product_category, min_price)`.  A pure function of the database state, so
repeated calls on unchanged data return the identical list. -/
def get_minimum_prices_today (db : DB) (today : ℕ) : List AggQuote :=
  List.insertionSort quoteLE (aggregate (joinedRows db today))

/-- The per-message body of `AutomationEngine.process_whatsapp_messages`:
run the extractor on the text and `insert_price` every candidate under the
resolved vendor, with `company` left at its default `""` and source
`'whatsapp_text'`. -/
def processMessage (db : DB) (vendor : VendorRow) (text : String) (today : ℕ) : DB :=
  (extract_from_text text).foldl
    (fun d c => insert_price d vendor.vendor_id c.category c.model c.price
      "" c.unit "whatsapp_text" today) db

/-- The `daily_prices` row that storing one candidate produces. -/
def candidateRow (vid : String) (today : ℕ) (c : PriceCandidate) : PriceRow :=
  { date := today, vendor_id := vid, product_category := c.category,
    product_model := c.model, product_company := "", price := c.price,
    unit := c.unit, source := "whatsapp_text" }

/-! ### `retry_with_backoff` (production_utils.py lines 23-90)

The wrapped operation is modelled as a map from the 1-based attempt number
to `Option α` (`none` = the attempt raises, `some a` = it returns `a`), and
the jitter draws as a map from the attempt number to the factor used.  The
result is `(number of invocations, final outcome, sleeps performed in
order)`; a `none` outcome models re-raising the last exception. -/

structure RetryConfig where
  max_attempts : ℕ
  initial_delay : ℚ
  max_delay : ℚ
  backoff_multiplier : ℚ
  jitter : Bool

/-- The `for attempt in range(1, max_attempts + 1)` loop: on failure with
attempts remaining, sleep `min(delay * jitter_factor, max_delay)` and retry
with `delay *= backoff_multiplier`; on the last attempt, no sleep. -/
def retryAux {α : Type} (cfg : RetryConfig) (outcomes : ℕ → Option α) (js : ℕ → ℚ) :
    ℕ → ℕ → ℚ → ℕ × Option α × List ℚ
  | _, 0, _ => (0, none, [])
  | attempt, remaining + 1, delay =>
    match outcomes attempt with
    | some a => (1, some a, [])
    | none =>
      if remaining = 0 then (1, none, [])
      else
        let jf := if cfg.jitter then js attempt else 1
        let slp := min (delay * jf) cfg.max_delay
        let r := retryAux cfg outcomes js (attempt + 1) remaining
          (delay * cfg.backoff_multiplier)
        (r.1 + 1, r.2.1, slp :: r.2.2)

def retry_with_backoff {α : Type} (cfg : RetryConfig) (outcomes : ℕ → Option α)
    (js : ℕ → ℚ) : ℕ × Option α × List ℚ :=
  retryAux cfg outcomes js 1 cfg.max_attempts cfg.initial_delay

/-! ### `CircuitBreaker` (production_utils.py lines 96-190)

Wall-clock instants are rationals; `call` takes the current time and whether
the wrapped operation would succeed if invoked. -/

inductive CBState where
  | CLOSED
  | OPEN
  | HALF_OPEN
deriving DecidableEq

structure CircuitBreaker where
  failure_threshold : ℕ
  recovery_timeout : ℚ
  failure_count : ℕ
  last_failure_time : Option ℚ
  state : CBState
deriving DecidableEq

/-- `CircuitBreaker.__init__(failure_threshold, recovery_timeout)`. -/
def mkCircuitBreaker (threshold : ℕ) (timeout : ℚ) : CircuitBreaker :=
  { failure_threshold := threshold, recovery_timeout := timeout,
    failure_count := 0, last_failure_time := none, state := .CLOSED }

/-- `CircuitBreaker._should_attempt_reset`. -/
def shouldAttemptReset (cb : CircuitBreaker) (now : ℚ) : Prop :=
  match cb.last_failure_time with
  | none => False
  | some t => cb.recovery_timeout ≤ now - t

instance (cb : CircuitBreaker) (now : ℚ) : Decidable (shouldAttemptReset cb now) := by
  unfold shouldAttemptReset
  match cb.last_failure_time with
  | none => exact inferInstanceAs (Decidable False)
  | some t => exact inferInstanceAs (Decidable (_ ≤ _))

/-- `CircuitBreaker._on_success`. -/
def on_success (cb : CircuitBreaker) : CircuitBreaker :=
  { cb with failure_count := 0,
            state := if cb.state = .HALF_OPEN then .CLOSED else cb.state }

/-- `CircuitBreaker._on_failure`. -/
def on_failure (cb : CircuitBreaker) (now : ℚ) : CircuitBreaker :=
  { cb with failure_count := cb.failure_count + 1, last_failure_time := some now,
            state := if cb.failure_threshold ≤ cb.failure_count + 1 then .OPEN
                     else cb.state }

/-- Result of one `CircuitBreaker.call`: in which state the wrapped operation
was invoked (`none` = rejected without invoking it), whether an exception
propagated to the caller, and the breaker afterwards. -/
structure CallOutcome where
  invokedIn : Option CBState
  raised : Bool
  breaker : CircuitBreaker
deriving DecidableEq

/-- `CircuitBreaker.call`: an OPEN breaker rejects outright unless the
recovery timeout has elapsed, in which case it moves to HALF_OPEN and
invokes the operation; otherwise invoke, then `_on_success`/`_on_failure`. -/
def CircuitBreaker.call (cb : CircuitBreaker) (now : ℚ) (opSucceeds : Bool) :
    CallOutcome :=
  if cb.state = .OPEN ∧ ¬ shouldAttemptReset cb now then
    { invokedIn := none, raised := true, breaker := cb }
  else
    let cb1 := if cb.state = .OPEN then { cb with state := .HALF_OPEN } else cb
    if opSucceeds then
      { invokedIn := some cb1.state, raised := false, breaker := on_success cb1 }
    else
      { invokedIn := some cb1.state, raised := true, breaker := on_failure cb1 now }

/-- The breaker of C3's scenario after two consecutive failed calls starting
from a fresh `CircuitBreaker(failure_threshold=2)`. -/
def cbAfterTwoFailures (rt t1 t2 : ℚ) : CircuitBreaker :=
  (((mkCircuitBreaker 2 rt).call t1 false).breaker.call t2 false).breaker

/-! ### `ProductionOrchestrator.run` and `main` (run_all.py lines 336-476)

Stage bodies are modelled by their per-attempt outcomes (`true` = the body
returns normally, `false` = it raises); each stage is pushed through the
embedded `retry_with_backoff` with the decorator's configuration from the
source.  `step3_generate_reports` is special: its body catches its own
exceptions and returns `(False, None, None)` instead of raising, so the
retry wrapper sees a normal return on the first attempt.

`staleSummary` models whether `output/daily_summary_*.txt` files from
*earlier* runs exist: `main` decides between exit codes 1 and 2 with a glob
over all dates, not just today's file.  `reportFailureWroteSummary` models
whether a failing report stage nevertheless left a summary file behind
(`save_reports` writes the summary before the detailed report). -/

structure OrchInput where
  vendorsOk : Bool
  collectOutcomes : ℕ → Bool
  extractOutcomes : ℕ → Bool
  reportBodyOk : ℕ → Bool
  deliverOutcomes : ℕ → Bool
  reportFailureWroteSummary : Bool
  staleSummary : Bool

structure OrchResult where
  workflowSuccess : Bool
  ctxStatus : String
  collectInvocations : ℕ
  extractInvocations : ℕ
  reportInvocations : ℕ
  deliverInvocations : ℕ
  summaryExists : Bool
deriving DecidableEq

/-- A retry-decorated stage whose body raises on `false`: number of
invocations and whether the stage finally succeeded.  The delay arguments
only affect the sleeps, which the orchestrator's control flow never reads. -/
def stageRetry (maxAttempts : ℕ) (initialDelay : ℚ) (outcomes : ℕ → Bool) : ℕ × Bool :=
  let r := retry_with_backoff
    { max_attempts := maxAttempts, initial_delay := initialDelay, max_delay := 60,
      backoff_multiplier := 2, jitter := true }
    (fun i => if outcomes i then some () else none) (fun _ => 1)
  (r.1, r.2.1.isSome)

/-- `step3_generate_reports` through its decorator: the body never raises
(it returns `(ok, paths-present)`), so the retry loop returns after the
first invocation whatever `ok` is. -/
def reportStage (reportBodyOk : ℕ → Bool) : ℕ × Bool :=
  let r := retry_with_backoff
    { max_attempts := 2, initial_delay := 3, max_delay := 60,
      backoff_multiplier := 2, jitter := true }
    (fun i => some (reportBodyOk i)) (fun _ => 1)
  (r.1, r.2.1.getD false)

/-- `ProductionOrchestrator.run`:
* vendor loading raises → outer handler, workflow failure, no stages run;
* step 1 (collect, retry ×3) — failure caught and swallowed;
* step 2 (extract, retry ×2) — exhaustion re-raises, aborting the run;
* step 3 (report) — body swallows its errors, returns a failure flag; a
  failure sets `workflow_success = False` but does *not* raise;
* step 4 (deliver, retry ×3) — only entered when step 3 produced paths;
  failure caught and swallowed. -/
def ProductionOrchestrator.run (inp : OrchInput) : OrchResult :=
  if inp.vendorsOk then
    let c := stageRetry 3 5 inp.collectOutcomes
    let e := stageRetry 2 3 inp.extractOutcomes
    if e.2 then
      let r := reportStage inp.reportBodyOk
      let d := if r.2 then stageRetry 3 5 inp.deliverOutcomes else (0, false)
      { workflowSuccess := r.2,
        ctxStatus := if r.2 then "SUCCESS" else "FAILURE",
        collectInvocations := c.1, extractInvocations := e.1,
        reportInvocations := r.1, deliverInvocations := d.1,
        summaryExists := inp.staleSummary ||
          (if r.2 then true else inp.reportFailureWroteSummary) }
    else
      { workflowSuccess := false, ctxStatus := "FAILURE",
        collectInvocations := c.1, extractInvocations := e.1,
        reportInvocations := 0, deliverInvocations := 0,
        summaryExists := inp.staleSummary }
  else
    { workflowSuccess := false, ctxStatus := "FAILURE",
      collectInvocations := 0, extractInvocations := 0,
      reportInvocations := 0, deliverInvocations := 0,
      summaryExists := inp.staleSummary }

/-- `main`'s exit-code derivation: 0 when `run` returned `True`, else 1 when
the glob `output/daily_summary_*.txt` (any date!) finds a file, else 2.
(`KeyboardInterrupt` → 3 and an unhandled constructor exception → 2 are
outside this model.) -/
def mainExitCode (inp : OrchInput) : ℕ :=
  let r := ProductionOrchestrator.run inp
  if r.workflowSuccess then 0 else if r.summaryExists then 1 else 2

/-! ### Projections used to state the aggregation claims -/

/-- All columns of one joined row that the query projects. -/
def joinProj (x : PriceRow × VendorRow) :
    (String × String × String) × ℚ × String × String × String × String × String :=
  (prKey x, x.1.price, x.1.unit, x.2.vendor_id, x.2.vendor_name, x.2.mobile,
    x.2.vendor_type)

/-- The corresponding columns of an aggregated quote. -/
def quoteProj (q : AggQuote) :
    (String × String × String) × ℚ × String × String × String × String × String :=
  (quoteKey q, q.min_price, q.unit, q.vendor_id, q.vendor_name, q.mobile,
    q.vendor_type)

/-! ### Concrete data used by counterexamples and witnesses -/

/-- The running example message of the spec. -/
def exampleText : String := "Inverter Growatt 5KW Price: Rs 65,000 per piece"

/-- The candidate the extractor produces for `exampleText` (twice). -/
def exampleCandidate : PriceCandidate :=
  { category := "Inverter", model := "Growatt", price := 65000,
    unit := "per piece", raw_text := exampleText }

/-- A message reporting a zero price. -/
def zeroText : String := "inverter solis rs 0"

/-- The candidate the extractor produces for `zeroText`. -/
def zeroCandidate : PriceCandidate :=
  { category := "Inverter", model := "Solis", price := 0,
    unit := "per piece", raw_text := zeroText }

/-- A sample active vendor. -/
def vActive : VendorRow :=
  { vendor_id := "VND001", vendor_name := "ABC Solar Traders", mobile := "0300-1234567",
    whatsapp_number := "+923001234567", vendor_type := "Importer", status := "active" }

/-- A sample inactive vendor. -/
def vInactive : VendorRow :=
  { vendor_id := "VND002", vendor_name := "XYZ Energy Hub", mobile := "0321-9876543",
    whatsapp_number := "+923219876543", vendor_type := "Trader", status := "inactive" }

/-- A price row recorded (on day 0) under a vendor_id absent from `vendors`. -/
def danglingRow : PriceRow :=
  { date := 0, vendor_id := "VNDX", product_category := "Battery",
    product_model := "Generic", product_company := "", price := 500,
    unit := "per piece", source := "whatsapp" }

/-- A price row recorded on day 0 by the inactive vendor. -/
def inactiveRow : PriceRow :=
  { date := 0, vendor_id := "VND002", product_category := "Inverter",
    product_model := "Growatt", product_company := "", price := 400,
    unit := "per piece", source := "whatsapp_text" }

/-- A price row recorded on day 0 by the active vendor. -/
def activeRow : PriceRow :=
  { date := 0, vendor_id := "VND001", product_category := "Inverter",
    product_model := "Growatt", product_company := "", price := 450,
    unit := "per piece", source := "whatsapp_text" }

/-- Database whose only price row for the day has a dangling vendor_id. -/
def dbDangling : DB := { vendors := [], daily_prices := [danglingRow] }

/-- Database with one active vendor and one of its price rows. -/
def dbActiveOne : DB := { vendors := [vActive], daily_prices := [activeRow] }

/-- Database with one inactive vendor and one of its price rows. -/
def dbInactiveOne : DB := { vendors := [vInactive], daily_prices := [inactiveRow] }

/-- The quote `get_minimum_prices_today` reports for `dbActiveOne`. -/
def quoteActiveOne : AggQuote := mkQuote (activeRow, vActive)

/-- The quote `get_minimum_prices_today` reports for `dbInactiveOne`. -/
def quoteInactiveOne : AggQuote := mkQuote (inactiveRow, vInactive)

/-- Orchestrator input in which every stage behaves. -/
def inpAllOk : OrchInput :=
  { vendorsOk := true, collectOutcomes := fun _ => true,
    extractOutcomes := fun _ => true, reportBodyOk := fun _ => true,
    deliverOutcomes := fun _ => true, reportFailureWroteSummary := false,
    staleSummary := false }

/-- Extract stage raises on every attempt; a stale summary file exists. -/
def inpExtractFailStale : OrchInput :=
  { inpAllOk with extractOutcomes := fun _ => false, staleSummary := true }

/-- Extract stage raises on every attempt; no summary file anywhere. -/
def inpExtractFailClean : OrchInput :=
  { inpAllOk with extractOutcomes := fun _ => false }

/-- Delivery raises on every attempt; everything else behaves. -/
def inpDeliverFail : OrchInput :=
  { inpAllOk with deliverOutcomes := fun _ => false }

/-- Report stage body fails on every attempt; everything else behaves. -/
def inpReportFail : OrchInput :=
  { inpAllOk with reportBodyOk := fun _ => false }

/-! ### Helper lemmas about the aggregation -/

theorem sqlMinRow_cons_ne_none (a : PriceRow × VendorRow) (t : List (PriceRow × VendorRow)) :
    sqlMinRow (a :: t) ≠ none := by
  cases ht : sqlMinRow t with
  | none => simp [sqlMinRow, ht]
  | some b =>
    simp only [sqlMinRow, ht]
    by_cases hb : b.1.price < a.1.price <;> simp [hb]

theorem sqlMinRow_isSome_of_ne_nil {l : List (PriceRow × VendorRow)} (h : l ≠ []) :
    ∃ b, sqlMinRow l = some b := by
  cases l with
  | nil => exact absurd rfl h
  | cons a t =>
    cases hb : sqlMinRow (a :: t) with
    | none => exact absurd hb (sqlMinRow_cons_ne_none a t)
    | some b => exact ⟨b, rfl⟩

/-- The row `sqlMinRow` selects belongs to the list and attains the minimum. -/
theorem sqlMinRow_spec : ∀ {l : List (PriceRow × VendorRow)} {r},
    sqlMinRow l = some r → r ∈ l ∧ ∀ x ∈ l, r.1.price ≤ x.1.price := by
  intro l
  induction l with
  | nil => intro r h; simp [sqlMinRow] at h
  | cons a t ih =>
    intro r h
    cases ht : sqlMinRow t with
    | none =>
      simp only [sqlMinRow, ht] at h
      cases t with
      | nil =>
        injection h with h
        subst h
        exact ⟨List.mem_singleton_self _, by intro x hx; rw [List.mem_singleton.mp hx]⟩
      | cons b u => exact absurd ht (sqlMinRow_cons_ne_none b u)
    | some b =>
      simp only [sqlMinRow, ht] at h
      obtain ⟨hbmem, hbmin⟩ := ih ht
      by_cases hlt : b.1.price < a.1.price
      · rw [if_pos hlt] at h
        injection h with h
        subst h
        refine ⟨List.mem_cons_of_mem _ hbmem, ?_⟩
        intro x hx
        rcases List.mem_cons.mp hx with rfl | hx
        · exact le_of_lt hlt
        · exact hbmin x hx
      · rw [if_neg hlt] at h
        injection h with h
        subst h
        refine ⟨List.mem_cons_self _ _, ?_⟩
        intro x hx
        rcases List.mem_cons.mp hx with rfl | hx
        · exact le_refl _
        · exact le_trans (not_lt.mp hlt) (hbmin x hx)

theorem quoteKey_mkQuote (r : PriceRow × VendorRow) : quoteKey (mkQuote r) = prKey r := rfl

theorem filterMap_id_of_mem {κ : Type} {L : List κ} {f : κ → Option κ}
    (h : ∀ k ∈ L, f k = some k) : L.filterMap f = L := by
  induction L with
  | nil => rfl
  | cons k t ih =>
    rw [List.filterMap_cons, h k (List.mem_cons_self k t),
      ih (fun x hx => h x (List.mem_cons_of_mem _ hx))]

theorem filterMap_congr_mem {κ μ : Type} {L : List κ} {f g : κ → Option μ}
    (h : ∀ k ∈ L, f k = g k) : L.filterMap f = L.filterMap g := by
  induction L with
  | nil => rfl
  | cons k t ih =>
    rw [List.filterMap_cons, List.filterMap_cons, h k (List.mem_cons_self k t),
      ih (fun x hx => h x (List.mem_cons_of_mem _ hx))]

/-- The keys of the aggregated quotes are exactly the (deduplicated) keys of
the joined rows. -/
theorem aggregate_map_quoteKey (joined : List (PriceRow × VendorRow)) :
    (aggregate joined).map quoteKey = (joined.map prKey).dedup := by
  unfold aggregate
  rw [List.map_filterMap]
  apply filterMap_id_of_mem
  intro k hk
  have hkmem : k ∈ joined.map prKey := List.mem_dedup.mp hk
  obtain ⟨x, hx, hxk⟩ := List.mem_map.mp hkmem
  have hxg : x ∈ joined.filter (fun r => decide (prKey r = k)) :=
    List.mem_filter.mpr ⟨hx, decide_eq_true hxk⟩
  obtain ⟨r0, hr0⟩ := sqlMinRow_isSome_of_ne_nil (List.ne_nil_of_mem hxg)
  have hr0k : prKey r0 = k := by
    have := (sqlMinRow_spec hr0).1
    exact of_decide_eq_true (List.mem_filter.mp this).2
  rw [hr0]
  simp [quoteKey_mkQuote, hr0k]

/-- Every aggregated quote is the projection of a joined row that attains the
minimum price of its group. -/
theorem mem_aggregate {joined : List (PriceRow × VendorRow)} {q : AggQuote}
    (h : q ∈ aggregate joined) :
    ∃ r, r ∈ joined ∧ q = mkQuote r ∧
      ∀ x ∈ joined, prKey x = prKey r → r.1.price ≤ x.1.price := by
  unfold aggregate at h
  rw [List.mem_filterMap] at h
  obtain ⟨k, _, hfk⟩ := h
  cases hsm : sqlMinRow (joined.filter fun r => decide (prKey r = k)) with
  | none => rw [hsm] at hfk; simp at hfk
  | some r0 =>
    rw [hsm] at hfk
    have hq : q = mkQuote r0 := by
      simpa using hfk.symm
    obtain ⟨hrmem, hrmin⟩ := sqlMinRow_spec hsm
    have hr_joined : r0 ∈ joined := (List.mem_filter.mp hrmem).1
    have hr_k : prKey r0 = k := of_decide_eq_true (List.mem_filter.mp hrmem).2
    refine ⟨r0, hr_joined, hq, ?_⟩
    intro x hx hkey
    exact hrmin x (List.mem_filter.mpr ⟨hx, decide_eq_true (hkey.trans hr_k)⟩)

theorem flatMap_filter_of_nil {α β : Type} (l : List α) (m : α → Bool) (g : α → List β)
    (h : ∀ p, m p = false → g p = []) : (l.filter m).flatMap g = l.flatMap g := by
  induction l with
  | nil => rfl
  | cons a t ih =>
    cases ha : m a
    · rw [List.filter_cons, ha]
      simp only [List.flatMap_cons, Bool.false_eq_true, if_false, ih, h a ha,
        List.nil_append]
    · rw [List.filter_cons, ha]
      simp only [List.flatMap_cons, if_true, ih]

/-- The join only ever consults price rows whose `vendor_id` matches some
`vendors` row. -/
theorem joinedRows_filter_matched (db : DB) (today : ℕ) :
    joinedRows ⟨db.vendors, db.daily_prices.filter
        (fun p => db.vendors.any (fun v => decide (v.vendor_id = p.vendor_id)))⟩ today
      = joinedRows db today := by
  unfold joinedRows
  have h1 : (db.daily_prices.filter
        (fun p => db.vendors.any (fun v => decide (v.vendor_id = p.vendor_id)))).filter
        (fun p => decide (p.date = today))
      = (db.daily_prices.filter (fun p => decide (p.date = today))).filter
        (fun p => db.vendors.any (fun v => decide (v.vendor_id = p.vendor_id))) := by
    rw [List.filter_filter, List.filter_filter]
    exact List.filter_congr (fun a _ => Bool.and_comm _ _)
  rw [h1]
  apply flatMap_filter_of_nil
  intro p hp
  have hnil : db.vendors.filter (fun v => decide (v.vendor_id = p.vendor_id)) = [] := by
    rw [List.filter_eq_nil_iff]
    intro v hv
    have := List.any_eq_false.mp hp v hv
    simpa using this
  rw [hnil, List.map_nil]

theorem sqlMinRow_map_snd (g : VendorRow → VendorRow) :
    ∀ l : List (PriceRow × VendorRow),
      sqlMinRow (l.map (fun r => (r.1, g r.2)))
        = (sqlMinRow l).map (fun r => (r.1, g r.2)) := by
  intro l
  induction l with
  | nil => rfl
  | cons a t ih =>
    simp only [List.map_cons, sqlMinRow, ih]
    cases sqlMinRow t with
    | none => rfl
    | some b => by_cases hb : b.1.price < a.1.price <;> simp [hb]

theorem aggregate_map_snd (g : VendorRow → VendorRow)
    (hq : ∀ r : PriceRow × VendorRow, mkQuote (r.1, g r.2) = mkQuote r)
    (l : List (PriceRow × VendorRow)) :
    aggregate (l.map (fun r => (r.1, g r.2))) = aggregate l := by
  unfold aggregate
  have hkeys : (l.map (fun r => (r.1, g r.2))).map prKey = l.map prKey := by
    rw [List.map_map]
    exact List.map_congr_left (fun a _ => rfl)
  rw [hkeys]
  apply filterMap_congr_mem
  intro k _
  have hfil : (l.map (fun r => (r.1, g r.2))).filter (fun r => decide (prKey r = k))
      = (l.filter (fun r => decide (prKey r = k))).map (fun r => (r.1, g r.2)) := by
    rw [List.filter_map]
    congr 1
  rw [hfil, sqlMinRow_map_snd]
  cases sqlMinRow (l.filter (fun r => decide (prKey r = k))) with
  | none => rfl
  | some r0 => simp [hq r0]

theorem joinedRows_map_vendors (g : VendorRow → VendorRow)
    (hg : ∀ v, (g v).vendor_id = v.vendor_id) (db : DB) (today : ℕ) :
    joinedRows ⟨db.vendors.map g, db.daily_prices⟩ today
      = (joinedRows db today).map (fun r => (r.1, g r.2)) := by
  unfold joinedRows
  rw [List.map_flatMap]
  have hpt : ∀ p : PriceRow,
      ((db.vendors.map g).filter (fun v => decide (v.vendor_id = p.vendor_id))).map
        (fun v => (p, v))
      = ((db.vendors.filter (fun v => decide (v.vendor_id = p.vendor_id))).map
          (fun v => (p, v))).map (fun r => (r.1, g r.2)) := by
    intro p
    rw [List.filter_map, List.map_map, List.map_map]
    have hpred : db.vendors.filter ((fun v => decide (v.vendor_id = p.vendor_id)) ∘ g)
        = db.vendors.filter (fun v => decide (v.vendor_id = p.vendor_id)) :=
      List.filter_congr (fun v _ => by simp [Function.comp, hg v])
    rw [hpred]
    exact List.map_congr_left (fun v _ => rfl)
  simp only [hpt]

/-! ### Helper lemmas about the extractor and the pipeline write path -/

theorem parsePyFloat_nonneg {l : List Char} {q : ℚ} (h : parsePyFloat l = some q) :
    0 ≤ q := by
  unfold parsePyFloat at h
  dsimp only at h
  split at h
  · split at h
    · injection h with h
      subst h
      positivity
    · simp at h
  · split at h
    · simp at h
    · split at h
      · simp at h
      · split at h
        · split at h
          · injection h with h
            subst h
            positivity
          · injection h with h
            subst h
            positivity
        · simp at h

theorem clean_price_nonneg (l : List Char) : 0 ≤ clean_price l := by
  unfold clean_price
  cases h : parsePyFloat (l.filter fun c => c.isDigit || c == '.') with
  | none => simp
  | some q => simpa using parsePyFloat_nonneg h

theorem extractPrices_nonneg {t : String} {q : ℚ} (h : q ∈ extractPrices t) : 0 ≤ q := by
  unfold extractPrices at h
  rw [List.mem_flatMap] at h
  obtain ⟨p, _, hq⟩ := h
  rw [List.mem_map] at hq
  obtain ⟨m, _, rfl⟩ := hq
  exact clean_price_nonneg m

theorem mem_extract_price {t : String} {c : PriceCandidate}
    (h : c ∈ extract_from_text t) : c.price ∈ extractPrices t := by
  unfold extract_from_text at h
  dsimp only at h
  split at h
  · simp at h
  · split at h
    · simp at h
    · rw [List.mem_map] at h
      obtain ⟨pr, hpr, rfl⟩ := h
      exact hpr

theorem foldl_insert_daily (vid : String) (today : ℕ) :
    ∀ (cs : List PriceCandidate) (db : DB),
      (cs.foldl (fun d c => insert_price d vid c.category c.model c.price
          "" c.unit "whatsapp_text" today) db).daily_prices
        = db.daily_prices ++ cs.map (candidateRow vid today) := by
  intro cs
  induction cs with
  | nil => intro db; simp
  | cons c t ih =>
    intro db
    rw [List.foldl_cons, ih, List.map_cons]
    simp [insert_price, candidateRow, List.append_assoc]

theorem processMessage_daily_prices (db : DB) (v : VendorRow) (t : String) (today : ℕ) :
    (processMessage db v t today).daily_prices
      = db.daily_prices ++ (extract_from_text t).map (candidateRow v.vendor_id today) := by
  simpa [processMessage] using
    foldl_insert_daily v.vendor_id today (extract_from_text t) db

/-! ### Helper lemmas about the orchestrator's retried stages -/

/-- `step3_generate_reports` never raises, so the retry decorator invokes
it exactly once and returns whatever flag the first invocation produced. -/
theorem reportStage_eq (g : ℕ → Bool) : reportStage g = (1, g 1) := by
  simp [reportStage, retry_with_backoff, retryAux]

/-- A ×2-retried stage whose body always raises is invoked exactly twice
and finally re-raises. -/
theorem stageRetry_two_fail (d : ℚ) (o : ℕ → Bool) (h : ∀ i, o i = false) :
    stageRetry 2 d o = (2, false) := by
  simp [stageRetry, retry_with_backoff, retryAux, h]

/-- The breaker of the C3 scenario after the two opening failures. -/
theorem cbAfterTwoFailures_eq (rt t1 t2 : ℚ) :
    cbAfterTwoFailures rt t1 t2
      = { failure_threshold := 2, recovery_timeout := rt, failure_count := 2,
          last_failure_time := some t2, state := CBState.OPEN } := by
  simp [cbAfterTwoFailures, mkCircuitBreaker, CircuitBreaker.call, on_failure,
    shouldAttemptReset]

/-! ### Claim theorems -/

/-- C1 counterexample: the claim promises one aggregated quote per distinct
(category, model, company) triple of the price rows recorded for the current
date, but a row whose `vendor_id` has no `vendors` row (possible because the
foreign key is unenforced) is dropped by the query's inner join: in
`dbDangling` the date-0 rows contain the triple ("Battery", "Generic", ""),
yet `get_minimum_prices_today` returns no quote at all. -/
theorem C1_counterexample :
    get_minimum_prices_today dbDangling 0 = []
    ∧ (dbDangling.daily_prices.filter (fun p => decide (p.date = 0))).map rowKey
        = [("Battery", "Generic", "")] := by
  exact ⟨by decide, by decide⟩

/-- C1 (amended): over the price rows of the day that survive the inner join
with `vendors`, `get_minimum_prices_today` returns exactly one quote per
distinct (category, model, company) triple; each quote's columns (including
`min_price` and the vendor that supplied it) are the projection of one joined
row of its group, and `min_price` is a lower bound on the whole group, so it
is the true minimum; the result is ordered by (category, min_price
ascending); and the function is deterministic in the database state, so the
tie-break is stable across repeated calls on unchanged data. -/
theorem C1_minimum_aggregation (db : DB) (today : ℕ) :
    ((get_minimum_prices_today db today).map quoteKey).Nodup
    ∧ (∀ k, k ∈ (get_minimum_prices_today db today).map quoteKey
        ↔ k ∈ (joinedRows db today).map prKey)
    ∧ (∀ q ∈ get_minimum_prices_today db today,
        quoteProj q ∈ (joinedRows db today).map joinProj)
    ∧ (∀ q ∈ get_minimum_prices_today db today, ∀ x ∈ joinedRows db today,
        prKey x = quoteKey q → q.min_price ≤ x.1.price)
    ∧ (get_minimum_prices_today db today).Sorted quoteLE := by
  have hperm : (get_minimum_prices_today db today).Perm
      (aggregate (joinedRows db today)) :=
    List.perm_insertionSort quoteLE _
  refine ⟨?_, ?_, ?_, ?_, List.sorted_insertionSort quoteLE _⟩
  · rw [(hperm.map quoteKey).nodup_iff, aggregate_map_quoteKey]
    exact List.nodup_dedup _
  · intro k
    rw [(hperm.map quoteKey).mem_iff, aggregate_map_quoteKey, List.mem_dedup]
  · intro q hq
    obtain ⟨r, hr, rfl, _⟩ := mem_aggregate (hperm.subset hq)
    exact List.mem_map_of_mem joinProj hr
  · intro q hq x hx hkey
    obtain ⟨r, hr, rfl, hmin⟩ := mem_aggregate (hperm.subset hq)
    exact hmin x hx hkey

/-- C1 witness: the aggregation properties exercised on a one-vendor,
one-row database. -/
theorem C1_minimum_aggregation_witness :
    quoteProj quoteActiveOne ∈ (joinedRows dbActiveOne 0).map joinProj
    ∧ quoteActiveOne.min_price ≤ (activeRow, vActive).1.price :=
  ⟨(C1_minimum_aggregation dbActiveOne 0).2.2.1 quoteActiveOne (by decide),
   (C1_minimum_aggregation dbActiveOne 0).2.2.2.1 quoteActiveOne (by decide)
     (activeRow, vActive) (by decide) (by decide)⟩

/-- C10: the aggregation considers exactly the rows whose `vendor_id`
matches some `vendors` row: filtering `daily_prices` down to the matched
rows changes neither the join nor the result, so a dangling row is excluded
from every group and can never be the reported minimum (concretely,
`dbDangling` yields no quote); and vendor `status` is never consulted —
rewriting every vendor's status arbitrarily leaves the result unchanged, and
a price row of an `'inactive'` vendor is aggregated like any other. -/
theorem C10_join_ignores_status_and_drops_dangling :
    (∀ (db : DB) (today : ℕ),
        joinedRows ⟨db.vendors, db.daily_prices.filter
            (fun p => db.vendors.any (fun v => decide (v.vendor_id = p.vendor_id)))⟩ today
          = joinedRows db today
        ∧ get_minimum_prices_today ⟨db.vendors, db.daily_prices.filter
            (fun p => db.vendors.any (fun v => decide (v.vendor_id = p.vendor_id)))⟩ today
          = get_minimum_prices_today db today)
    ∧ (∀ (db : DB) (today : ℕ) (f : VendorRow → String),
        get_minimum_prices_today
            ⟨db.vendors.map (fun v => { v with status := f v }), db.daily_prices⟩ today
          = get_minimum_prices_today db today)
    ∧ get_minimum_prices_today dbDangling 0 = []
    ∧ get_minimum_prices_today dbInactiveOne 0 = [quoteInactiveOne] := by
  refine ⟨?_, ?_, by decide, by decide⟩
  · intro db today
    have hj := joinedRows_filter_matched db today
    exact ⟨hj, by unfold get_minimum_prices_today; rw [hj]⟩
  · intro db today f
    unfold get_minimum_prices_today
    rw [joinedRows_map_vendors (fun v => { v with status := f v }) (fun _ => rfl)
        db today,
      aggregate_map_snd (fun v => { v with status := f v }) (fun _ => rfl)]

/-- C2 counterexample: on the spec's own example text the extractor returns
two price candidates, not one — pattern 1 (`rs N`) and pattern 4 (`N per`)
both match the numeral `65,000` and `extract_from_text` never deduplicates
across patterns (pattern 3, `price: N`, matches nothing here because `rs`
stands between `price:` and the numeral). -/
theorem C2_counterexample :
    (extract_from_text exampleText).length = 2
    ∧ (extract_from_text exampleText).length ≠ 1 := by
  have h : (extract_from_text exampleText).length = 2 := by decide
  exact ⟨h, by rw [h]; decide⟩

/-- C2 (amended): `extract_from_text` emits one `PriceCandidate` per numeric
match occurrence across all price patterns, with no deduplication of a
numeral matched by several patterns; in particular, for the text
"Inverter Growatt 5KW Price: Rs 65,000 per piece" it returns exactly two
identical candidates with category "Inverter", model "Growatt", price
65000.0 and unit "per piece". -/
theorem C2_extraction :
    extract_from_text exampleText = [exampleCandidate, exampleCandidate]
    ∧ ∀ t : String, extract_from_text t = []
        ∨ (extract_from_text t).map PriceCandidate.price = extractPrices t := by
  constructor
  · decide
  · intro t
    unfold extract_from_text
    dsimp only
    split
    · exact Or.inl rfl
    · split
      · exact Or.inl rfl
      · right
        rw [List.map_map]
        exact (List.map_congr_left fun pr _ => rfl).trans (List.map_id _)

/-- C9 counterexample: a message whose only numeral is `0` yields a
candidate with price `0.0` and the pipeline stores it unmodified — the
stored rows of an empty database after processing "inverter solis rs 0"
carry price 0, violating the claimed `price > 0` invariant. -/
theorem C9_counterexample :
    (extract_from_text zeroText).map PriceCandidate.price = [0]
    ∧ ((processMessage { vendors := [vActive], daily_prices := [] }
          vActive zeroText 0).daily_prices.map PriceRow.price) = [0] := by
  exact ⟨by decide, by decide⟩

/-- C9 (amended): every price the extractor emits — and hence every price
row the pipeline appends via `insert_price` — is nonnegative, but not
necessarily positive: candidates with price exactly 0 can be produced and
stored, so the invariant that holds is `price ≥ 0`, not `price > 0`. -/
theorem C9_price_nonneg :
    (∀ (t : String) (c : PriceCandidate), c ∈ extract_from_text t → 0 ≤ c.price)
    ∧ (∀ (db : DB) (v : VendorRow) (t : String) (today : ℕ) (p : PriceRow),
        p ∈ (processMessage db v t today).daily_prices →
          p ∈ db.daily_prices ∨ 0 ≤ p.price) := by
  have h1 : ∀ (t : String) (c : PriceCandidate), c ∈ extract_from_text t → 0 ≤ c.price :=
    fun _ _ hc => extractPrices_nonneg (mem_extract_price hc)
  refine ⟨h1, ?_⟩
  intro db v t today p hp
  rw [processMessage_daily_prices, List.mem_append] at hp
  rcases hp with hp | hp
  · exact Or.inl hp
  · right
    rw [List.mem_map] at hp
    obtain ⟨c, hc, rfl⟩ := hp
    exact h1 t c hc

/-- C9 witness: the nonnegativity bound applied to the zero-price candidate
actually extracted from "inverter solis rs 0". -/
theorem C9_price_nonneg_witness : (0 : ℚ) ≤ zeroCandidate.price :=
  C9_price_nonneg.1 zeroText zeroCandidate (by decide)

/-- C7 counterexample: `insert_price` with a `vendor_id` matching no vendor
("VND999" against a vendors table holding only "VND001") raises no error
and appends the row anyway — sqlite3 leaves `PRAGMA foreign_keys` off and
the code performs no vendor lookup, so no referential check happens at
write time. -/
theorem C7_counterexample :
    (insert_price dbActiveOne "VND999" "Inverter" "Growatt" 65000 "" "per piece"
        "whatsapp" 0).daily_prices.length = dbActiveOne.daily_prices.length + 1
    ∧ dbActiveOne.vendors.map VendorRow.vendor_id = ["VND001"] := by
  exact ⟨by decide, by decide⟩

/-- C7 (amended): every call to `insert_price` appends exactly one price row
stamped with the current date and leaves the vendors table untouched,
regardless of whether `vendor_id` names an existing or active vendor — no
storage error is possible and no referential integrity is enforced at write
time. -/
theorem C7_insert_unconditional :
    ∀ (db : DB) (vid cat mdl : String) (pr : ℚ) (comp u src : String) (today : ℕ),
      (insert_price db vid cat mdl pr comp u src today).daily_prices
        = db.daily_prices ++
          [{ date := today, vendor_id := vid, product_category := cat,
             product_model := mdl, product_company := comp, price := pr,
             unit := u, source := src }]
      ∧ (insert_price db vid cat mdl pr comp u src today).vendors = db.vendors :=
  fun _ _ _ _ _ _ _ _ _ => ⟨rfl, rfl⟩

/-- C3: for a `CircuitBreaker(failure_threshold=2)` starting fresh, one
failed call leaves the breaker CLOSED and a second consecutive failure opens
it; while OPEN, a call before `recovery_timeout` seconds have elapsed since
the last failure is rejected with the breaker unchanged and the wrapped
operation is not invoked (whatever its outcome would have been); a call
after the timeout invokes the operation exactly once in HALF_OPEN state, and
the breaker transitions to CLOSED if that call succeeds and back to OPEN
with `last_failure_time` refreshed to the call's time if it fails. -/
theorem C3_circuit_breaker (rt t1 t2 t3 t4 : ℚ)
    (h3 : t3 - t2 < rt) (h4 : rt ≤ t4 - t2) :
    ((mkCircuitBreaker 2 rt).call t1 false).breaker.state = CBState.CLOSED
    ∧ (cbAfterTwoFailures rt t1 t2).state = CBState.OPEN
    ∧ ((cbAfterTwoFailures rt t1 t2).call t3 true).invokedIn = none
    ∧ ((cbAfterTwoFailures rt t1 t2).call t3 false).invokedIn = none
    ∧ ((cbAfterTwoFailures rt t1 t2).call t3 true).breaker = cbAfterTwoFailures rt t1 t2
    ∧ ((cbAfterTwoFailures rt t1 t2).call t4 true).invokedIn = some CBState.HALF_OPEN
    ∧ ((cbAfterTwoFailures rt t1 t2).call t4 true).breaker.state = CBState.CLOSED
    ∧ ((cbAfterTwoFailures rt t1 t2).call t4 false).invokedIn = some CBState.HALF_OPEN
    ∧ ((cbAfterTwoFailures rt t1 t2).call t4 false).breaker.state = CBState.OPEN
    ∧ ((cbAfterTwoFailures rt t1 t2).call t4 false).breaker.last_failure_time
        = some t4 := by
  have hcb := cbAfterTwoFailures_eq rt t1 t2
  have hnr : ¬ (rt ≤ t3 - t2) := not_le.mpr h3
  refine ⟨?_, ?_, ?_, ?_, ?_, ?_, ?_, ?_, ?_, ?_⟩
  · simp [mkCircuitBreaker, CircuitBreaker.call, on_failure, shouldAttemptReset]
  · rw [hcb]
  · rw [hcb]; simp [CircuitBreaker.call, shouldAttemptReset, hnr]
  · rw [hcb]; simp [CircuitBreaker.call, shouldAttemptReset, hnr]
  · rw [hcb]; simp [CircuitBreaker.call, shouldAttemptReset, hnr]
  · rw [hcb]; simp [CircuitBreaker.call, shouldAttemptReset, h4, on_success]
  · rw [hcb]; simp [CircuitBreaker.call, shouldAttemptReset, h4, on_success]
  · rw [hcb]; simp [CircuitBreaker.call, shouldAttemptReset, h4, on_failure]
  · rw [hcb]; simp [CircuitBreaker.call, shouldAttemptReset, h4, on_failure]
  · rw [hcb]; simp [CircuitBreaker.call, shouldAttemptReset, h4, on_failure]

/-- C3 witness: the breaker scenario at recovery_timeout 10 with failures at
times 0 and 1, a rejected call at time 5 and a probing call at time 11. -/
theorem C3_circuit_breaker_witness :
    ((mkCircuitBreaker 2 10).call 0 false).breaker.state = CBState.CLOSED
    ∧ (cbAfterTwoFailures 10 0 1).state = CBState.OPEN
    ∧ ((cbAfterTwoFailures 10 0 1).call 5 true).invokedIn = none
    ∧ ((cbAfterTwoFailures 10 0 1).call 5 false).invokedIn = none
    ∧ ((cbAfterTwoFailures 10 0 1).call 5 true).breaker = cbAfterTwoFailures 10 0 1
    ∧ ((cbAfterTwoFailures 10 0 1).call 11 true).invokedIn = some CBState.HALF_OPEN
    ∧ ((cbAfterTwoFailures 10 0 1).call 11 true).breaker.state = CBState.CLOSED
    ∧ ((cbAfterTwoFailures 10 0 1).call 11 false).invokedIn = some CBState.HALF_OPEN
    ∧ ((cbAfterTwoFailures 10 0 1).call 11 false).breaker.state = CBState.OPEN
    ∧ ((cbAfterTwoFailures 10 0 1).call 11 false).breaker.last_failure_time
        = some 11 :=
  C3_circuit_breaker 10 0 1 5 11 (by norm_num) (by norm_num)

/-- C4 counterexample: the claimed lower bound `initial_delay * 0.8` on the
sleep before the second attempt fails when `max_delay` is smaller: with
`initial_delay = 5`, `max_delay = 1`, jitter factor 1 (within [0.8, 1.2]),
the operation failing twice then succeeding sleeps exactly 1 second before
the second attempt, while `0.8 * initial_delay = 4`. -/
theorem C4_counterexample :
    retry_with_backoff
        { max_attempts := 3, initial_delay := 5, max_delay := 1,
          backoff_multiplier := 2, jitter := true }
        (fun n => if n = 3 then some (7 : ℕ) else none) (fun _ => 1)
      = (3, some 7, [1, 1])
    ∧ ¬ ((4 : ℚ) / 5 * 5 ≤ 1) := by
  constructor
  · norm_num [retry_with_backoff, retryAux]
  · norm_num

/-- C4 (amended): with `max_attempts = 3`, an operation failing on its first
two attempts and succeeding on the third is invoked exactly three times
(retried exactly twice), the wrapper returns the third invocation's result,
and each sleep equals `min(current_delay * jitter_factor, max_delay)`;
provided `0 ≤ initial_delay`, `1 ≤ backoff_multiplier` and
`0.8 * initial_delay ≤ max_delay` — satisfied by the module defaults — the
delay slept before the second attempt is at least `initial_delay * 0.8` and
at most `initial_delay * backoff_multiplier * 1.2`. -/
theorem C4_retry_bounds (i md m : ℚ) (a : ℕ) (outs : ℕ → Option ℕ) (js : ℕ → ℚ)
    (h1 : outs 1 = none) (h2 : outs 2 = none) (h3 : outs 3 = some a)
    (hj1l : 4 / 5 ≤ js 1) (hj1u : js 1 ≤ 6 / 5)
    (hj2l : 4 / 5 ≤ js 2) (hj2u : js 2 ≤ 6 / 5)
    (hi : 0 ≤ i) (hm : 1 ≤ m) (hmd : 4 / 5 * i ≤ md) :
    retry_with_backoff
        { max_attempts := 3, initial_delay := i, max_delay := md,
          backoff_multiplier := m, jitter := true } outs js
      = (3, some a, [min (i * js 1) md, min (i * m * js 2) md])
    ∧ 4 / 5 * i ≤ min (i * js 1) md
    ∧ min (i * js 1) md ≤ i * m * (6 / 5) := by
  refine ⟨?_, ?_, ?_⟩
  · simp [retry_with_backoff, retryAux, h1, h2, h3]
  · exact le_min (by nlinarith) hmd
  · exact le_trans (min_le_left _ _) (by nlinarith)

/-- C4 witness: the bounds at the default-like configuration
`initial_delay = 1, max_delay = 60, backoff_multiplier = 2` with unit jitter
factors and an operation succeeding on its third attempt with value 7. -/
theorem C4_retry_bounds_witness :
    retry_with_backoff
        { max_attempts := 3, initial_delay := 1, max_delay := 60,
          backoff_multiplier := 2, jitter := true }
        (fun n => if n = 3 then some (7 : ℕ) else none) (fun _ => 1)
      = (3, some 7, [min (1 * (1 : ℚ)) 60, min (1 * 2 * (1 : ℚ)) 60])
    ∧ (4 : ℚ) / 5 * 1 ≤ min (1 * (1 : ℚ)) 60
    ∧ min (1 * (1 : ℚ)) 60 ≤ 1 * 2 * ((6 : ℚ) / 5) :=
  C4_retry_bounds 1 60 2 7 (fun n => if n = 3 then some 7 else none) (fun _ => 1)
    rfl rfl rfl (by norm_num) (by norm_num) (by norm_num) (by norm_num)
    (by norm_num) (by norm_num) (by norm_num)

/-- C5 counterexample: a run whose Extract stage exhausts its two retry
attempts while a `daily_summary_*.txt` file from an earlier day still sits
in the output directory exits with code 1, not the claimed 2 — `main` globs
summary files of any date to decide between the two codes. -/
theorem C5_counterexample :
    (ProductionOrchestrator.run inpExtractFailStale).extractInvocations = 2
    ∧ (ProductionOrchestrator.run inpExtractFailStale).workflowSuccess = false
    ∧ (ProductionOrchestrator.run inpExtractFailStale).reportInvocations = 0
    ∧ mainExitCode inpExtractFailStale = 1 := by
  exact ⟨by decide, by decide, by decide, by decide⟩

/-- C5 (amended): when the Extract stage raises on every attempt, it is
invoked exactly twice (its decorator's `max_attempts=2`), the run ends with
execution status FAILURE, neither the Report nor the Deliver stage body is
ever invoked, and the process exits with code 2 — provided no
`daily_summary_*.txt` file (from this or any earlier run) exists in the
output directory; a stale summary file turns the exit code into 1. -/
theorem C5_extract_exhaustion (inp : OrchInput)
    (hv : inp.vendorsOk = true) (hex : ∀ attIdx, inp.extractOutcomes attIdx = false) :
    (ProductionOrchestrator.run inp).ctxStatus = "FAILURE"
    ∧ (ProductionOrchestrator.run inp).workflowSuccess = false
    ∧ (ProductionOrchestrator.run inp).extractInvocations = 2
    ∧ (ProductionOrchestrator.run inp).reportInvocations = 0
    ∧ (ProductionOrchestrator.run inp).deliverInvocations = 0
    ∧ mainExitCode inp = (if inp.staleSummary then 1 else 2) := by
  have he := stageRetry_two_fail 3 inp.extractOutcomes hex
  refine ⟨?_, ?_, ?_, ?_, ?_, ?_⟩ <;>
    simp [ProductionOrchestrator.run, mainExitCode, hv, he]

/-- C5 witness: the amended behaviour at a concrete input with no stale
summary file, yielding exit code 2. -/
theorem C5_extract_exhaustion_witness :
    (ProductionOrchestrator.run inpExtractFailClean).ctxStatus = "FAILURE"
    ∧ (ProductionOrchestrator.run inpExtractFailClean).workflowSuccess = false
    ∧ (ProductionOrchestrator.run inpExtractFailClean).extractInvocations = 2
    ∧ (ProductionOrchestrator.run inpExtractFailClean).reportInvocations = 0
    ∧ (ProductionOrchestrator.run inpExtractFailClean).deliverInvocations = 0
    ∧ mainExitCode inpExtractFailClean
        = (if inpExtractFailClean.staleSummary then 1 else 2) :=
  C5_extract_exhaustion inpExtractFailClean rfl (fun _ => rfl)

/-- C6 counterexample: a run in which reports are generated but the Deliver
stage raises on all three attempts still returns workflow success and exits
with code 0, not the claimed 1 — delivery failure is swallowed without
touching `workflow_success`; likewise a run whose Collect stage exhausts its
three attempts while everything else succeeds exits 0. -/
theorem C6_counterexample :
    (ProductionOrchestrator.run inpDeliverFail).deliverInvocations = 3
    ∧ (ProductionOrchestrator.run inpDeliverFail).workflowSuccess = true
    ∧ mainExitCode inpDeliverFail = 0
    ∧ (ProductionOrchestrator.run
        { inpAllOk with collectOutcomes := fun _ => false }).collectInvocations = 3
    ∧ mainExitCode { inpAllOk with collectOutcomes := fun _ => false } = 0 := by
  exact ⟨by decide, by decide, by decide, by decide, by decide⟩

/-- C6 (amended): workflow success — and with it exit code 0 — depends only
on vendor loading, the retried Extract stage and the Report stage body;
collection and delivery outcomes never affect it.  Exit code 1 is produced
exactly when the workflow failed and some `daily_summary_*.txt` file exists
(possibly stale, possibly a partial artifact of the failed report stage);
exit code 2 exactly when the workflow failed and no summary file exists, so
exit 2 does imply that no report was produced. -/
theorem C6_exit_codes (inp : OrchInput) :
    (ProductionOrchestrator.run inp).workflowSuccess
        = (inp.vendorsOk && (stageRetry 2 3 inp.extractOutcomes).2 && inp.reportBodyOk 1)
    ∧ (mainExitCode inp = 0 ↔ (ProductionOrchestrator.run inp).workflowSuccess = true)
    ∧ (mainExitCode inp = 1 ↔ ((ProductionOrchestrator.run inp).workflowSuccess = false
        ∧ (ProductionOrchestrator.run inp).summaryExists = true))
    ∧ (mainExitCode inp = 2 ↔ ((ProductionOrchestrator.run inp).workflowSuccess = false
        ∧ (ProductionOrchestrator.run inp).summaryExists = false)) := by
  refine ⟨?_, ?_, ?_, ?_⟩
  · cases hv : inp.vendorsOk
    · simp [ProductionOrchestrator.run, hv]
    · cases he : (stageRetry 2 3 inp.extractOutcomes).2
      · simp [ProductionOrchestrator.run, hv, he]
      · simp [ProductionOrchestrator.run, hv, he, reportStage_eq]
  all_goals
    cases hw : (ProductionOrchestrator.run inp).workflowSuccess <;>
      cases hs : (ProductionOrchestrator.run inp).summaryExists <;>
        simp [mainExitCode, hw, hs]

/-- C8: the claim says a Report-stage failure propagates as a raised error,
is re-invoked by its RetryPolicy up to `max_attempts = 2`, and on exhaustion
aborts the remaining stages.  The code disagrees: `step3_generate_reports`
catches its own exceptions and returns `(False, None, None)`, so the retry
decorator sees a normal first-attempt return and never re-invokes the body
(exactly one invocation below), `run` proceeds past the stage instead of
aborting via the dead `raise` handler, and the Deliver stage is skipped only
because the returned paths are `None`. -/
theorem C8_report_failure_not_retried (inp : OrchInput)
    (hv : inp.vendorsOk = true)
    (he : (stageRetry 2 3 inp.extractOutcomes).2 = true)
    (hrep : ∀ attIdx, inp.reportBodyOk attIdx = false) :
    (ProductionOrchestrator.run inp).reportInvocations = 1
    ∧ (ProductionOrchestrator.run inp).deliverInvocations = 0
    ∧ (ProductionOrchestrator.run inp).workflowSuccess = false
    ∧ (ProductionOrchestrator.run inp).ctxStatus = "FAILURE" := by
  refine ⟨?_, ?_, ?_, ?_⟩ <;>
    simp [ProductionOrchestrator.run, hv, he, reportStage_eq, hrep]

/-- C8 witness: the Report stage failing on every attempt in an otherwise
healthy run is invoked exactly once. -/
theorem C8_report_failure_not_retried_witness :
    (ProductionOrchestrator.run inpReportFail).reportInvocations = 1
    ∧ (ProductionOrchestrator.run inpReportFail).deliverInvocations = 0
    ∧ (ProductionOrchestrator.run inpReportFail).workflowSuccess = false
    ∧ (ProductionOrchestrator.run inpReportFail).ctxStatus = "FAILURE" :=
  C8_report_failure_not_retried inpReportFail rfl (by decide) (fun _ => rfl)

end ElectroTech
